import Mathlib

/-!
# Verification of the Amstrad PC1640 NVR configuration utility (src/nvr.c)

A shallow embedding of the CMOS/RTC register-access core of `nvr.c`.
The 64-byte battery-backed register store is modelled as a function
`Nat → Nat` (cells hold bytes; reads mask the address to 6 bits and
return the cell value reduced mod 256, writes mask the address and store
the value reduced mod 256, mirroring the `addr &= 0x3F` masking and the
`unsigned char` conversions of `cmos_read` / `cmos_write`).  Stateful C
functions become explicit store-to-store functions; functions returning
an `int` status become functions returning `Nat × Cmos` (status, store).
-/

/-- The 64-byte CMOS register store: cell address to stored byte. -/
abbrev Cmos := Nat → Nat

/-- `cmos_read` (nvr.c:205): `addr &= 0x3F`, then an 8-bit data-port read. -/
def cmos_read (s : Cmos) (addr : Nat) : Nat :=
  s (addr % 64) % 256

/-- `cmos_write` (nvr.c:216): `addr &= 0x3F`, then an 8-bit data-port write. -/
def cmos_write (s : Cmos) (addr val : Nat) : Cmos :=
  fun x => if x = addr % 64 then val % 256 else s x

/-- `bcd_to_bin` (nvr.c:230): `((bcd >> 4) * 10) + (bcd & 0x0F)`; the
`unsigned char` parameter conversion is the `% 256`. -/
def bcd_to_bin (bcd : Nat) : Nat :=
  ((bcd % 256) >>> 4) * 10 + ((bcd % 256) &&& 0x0F)

/-- `bin_to_bcd` (nvr.c:235): `((bin / 10) << 4) | (bin % 10)`, converted
back to `unsigned char` on return. -/
def bin_to_bcd (bin : Nat) : Nat :=
  ((((bin % 256) / 10) <<< 4) ||| ((bin % 256) % 10)) % 256

/-- `rtc_is_bcd` (nvr.c:240): true iff the Register B data-mode bit
(`RTC_B_DM = 0x04`) is clear. -/
def rtc_is_bcd (s : Cmos) : Bool :=
  cmos_read s 0x0B &&& 0x04 == 0

/-- `rtc_to_bin` (nvr.c:245). -/
def rtc_to_bin (s : Cmos) (val : Nat) : Nat :=
  if rtc_is_bcd s then bcd_to_bin val else val

/-- `bin_to_rtc` (nvr.c:250). -/
def bin_to_rtc (s : Cmos) (val : Nat) : Nat :=
  if rtc_is_bcd s then bin_to_bcd val else val

/-- `cmos_calc_checksum` (nvr.c:317): `unsigned short` sum of the cells
0x10..0x2D; the accumulator wraps mod 2^16 at each addition. -/
def cmos_calc_checksum (s : Cmos) : Nat :=
  (List.range' 0x10 0x1E).foldl (fun sum i => (sum + cmos_read s i) % 65536) 0

/-- `cmos_verify_checksum` (nvr.c:327): the computed sum must equal the
big-endian 16-bit value stored at 0x2E/0x2F. -/
def cmos_verify_checksum (s : Cmos) : Bool :=
  cmos_calc_checksum s == ((cmos_read s 0x2E) <<< 8) ||| cmos_read s 0x2F

/-- `cmos_update_checksum` (nvr.c:337): recompute and store big-endian. -/
def cmos_update_checksum (s : Cmos) : Cmos :=
  let sum := cmos_calc_checksum s
  cmos_write (cmos_write s 0x2E ((sum >>> 8) &&& 0xFF)) 0x2F (sum &&& 0xFF)

/-! ### Basic store lemmas -/

theorem cmos_read_lt (s : Cmos) (a : Nat) : cmos_read s a < 256 :=
  Nat.mod_lt _ (by omega)

theorem cmos_write_apply (s : Cmos) (a v x : Nat) :
    cmos_write s a v x = if x = a % 64 then v % 256 else s x := rfl

theorem cmos_read_write (s : Cmos) (a v b : Nat) :
    cmos_read (cmos_write s a v) b =
      if b % 64 = a % 64 then v % 256 else cmos_read s b := by
  unfold cmos_read cmos_write
  by_cases h : b % 64 = a % 64 <;> simp [h]

/-! ### Checksum lemmas -/

/-- The wrapping foldl used by `cmos_calc_checksum` never actually wraps:
if the total fits below 2^16 it is the plain sum. -/
theorem foldl_mod_eq_sum (s : Cmos) :
    ∀ (l : List Nat) (acc : Nat),
      acc + (l.map (cmos_read s)).sum < 65536 →
      l.foldl (fun sum i => (sum + cmos_read s i) % 65536) acc =
        acc + (l.map (cmos_read s)).sum
  | [], acc, _ => by simp
  | i :: l, acc, h => by
    simp only [List.foldl_cons, List.map_cons, List.sum_cons] at *
    rw [Nat.mod_eq_of_lt (by omega), foldl_mod_eq_sum s l _ (by omega)]
    omega

/-- A list of byte values sums below 256 times its length. -/
theorem sum_lt_of_bytes :
    ∀ l : List Nat, (∀ x ∈ l, x < 256) → l.sum ≤ 255 * l.length
  | [], _ => by simp
  | x :: l, h => by
    have hx := h x (by simp)
    have := sum_lt_of_bytes l (fun y hy => h y (by simp [hy]))
    simp only [List.sum_cons, List.length_cons]
    omega

theorem calc_eq_sum (s : Cmos) :
    cmos_calc_checksum s = ((List.range' 0x10 0x1E).map (cmos_read s)).sum := by
  have hb : ∀ x ∈ (List.range' 0x10 0x1E).map (cmos_read s), x < 256 := by
    intro x hx
    obtain ⟨i, _, rfl⟩ := List.mem_map.1 hx
    exact cmos_read_lt s i
  have hlen : ((List.range' 0x10 0x1E).map (cmos_read s)).length = 30 := by simp
  have := sum_lt_of_bytes _ hb
  rw [hlen] at this
  have h := foldl_mod_eq_sum s (List.range' 0x10 0x1E) 0 (by omega)
  simpa [cmos_calc_checksum] using h

theorem calc_lt (s : Cmos) : cmos_calc_checksum s < 65536 := by
  rw [calc_eq_sum]
  have hb : ∀ x ∈ (List.range' 0x10 0x1E).map (cmos_read s), x < 256 := by
    intro x hx
    obtain ⟨i, _, rfl⟩ := List.mem_map.1 hx
    exact cmos_read_lt s i
  have hlen : ((List.range' 0x10 0x1E).map (cmos_read s)).length = 30 := by simp
  have := sum_lt_of_bytes _ hb
  omega

theorem mem_range'_iff {m s n : Nat} : m ∈ List.range' s n ↔ s ≤ m ∧ m < s + n := by
  rw [List.mem_range']
  constructor
  · rintro ⟨i, hi, rfl⟩; omega
  · intro h; exact ⟨m - s, by omega, by omega⟩

/-- Writing outside the covered range 0x10–0x2D leaves the checksum
computation unchanged. -/
theorem calc_write_outside (s : Cmos) (a v : Nat)
    (h : ∀ i, 0x10 ≤ i → i ≤ 0x2D → i ≠ a % 64) :
    cmos_calc_checksum (cmos_write s a v) = cmos_calc_checksum s := by
  rw [calc_eq_sum, calc_eq_sum]
  congr 1
  apply List.map_congr_left
  intro i hi
  rw [mem_range'_iff] at hi
  rw [cmos_read_write]
  have hne : i ≠ a % 64 := h i (by omega) (by omega)
  have : i % 64 = i := Nat.mod_eq_of_lt (by omega)
  rw [this]
  simp [hne]

theorem and_255_eq_mod (x : Nat) : x &&& 0xFF = x % 256 := by
  have := Nat.and_pow_two_sub_one_eq_mod x 8
  norm_num at this
  exact this

theorem pow_two_eight : (2 : Nat) ^ 8 = 256 := by norm_num

/-- Re-assembling the two stored checksum bytes recovers the 16-bit sum. -/
theorem checksum_recombine (n : Nat) (h : n < 65536) :
    ((((n >>> 8) &&& 0xFF) % 256) <<< 8) ||| ((n &&& 0xFF) % 256) = n := by
  have hdiv : n >>> 8 = n / 256 := by
    rw [Nat.shiftRight_eq_div_pow]
  have e1 : ((n >>> 8) &&& 0xFF) % 256 = n / 256 := by
    rw [and_255_eq_mod, hdiv]; omega
  have e2 : (n &&& 0xFF) % 256 = n % 256 := by rw [and_255_eq_mod]; omega
  have hor : 256 * (n / 256) + n % 256 = 256 * (n / 256) ||| n % 256 := by
    have := Nat.mul_add_lt_is_or (i := 8) (b := n % 256)
      (by rw [pow_two_eight]; omega) (n / 256)
    rwa [pow_two_eight] at this
  rw [e1, e2, Nat.shiftLeft_eq, pow_two_eight, Nat.mul_comm, ← hor]
  omega

/-- After `cmos_update_checksum`, `cmos_verify_checksum` is true. -/
theorem verify_update (s : Cmos) :
    cmos_verify_checksum (cmos_update_checksum s) = true := by
  unfold cmos_verify_checksum cmos_update_checksum
  set n := cmos_calc_checksum s with hn
  have hcalc :
      cmos_calc_checksum
        (cmos_write (cmos_write s 0x2E ((n >>> 8) &&& 0xFF)) 0x2F (n &&& 0xFF)) = n := by
    rw [calc_write_outside _ _ _ (by intro i h1 h2; omega),
        calc_write_outside _ _ _ (by intro i h1 h2; omega)]
  rw [hcalc]
  have r46 : cmos_read
      (cmos_write (cmos_write s 0x2E ((n >>> 8) &&& 0xFF)) 0x2F (n &&& 0xFF)) 0x2E
      = ((n >>> 8) &&& 0xFF) % 256 := by
    rw [cmos_read_write, cmos_read_write]
    norm_num
  have r47 : cmos_read
      (cmos_write (cmos_write s 0x2E ((n >>> 8) &&& 0xFF)) 0x2F (n &&& 0xFF)) 0x2F
      = (n &&& 0xFF) % 256 := by
    rw [cmos_read_write]
    norm_num
  rw [r46, r47, checksum_recombine n (by rw [hn]; exact calc_lt s)]
  simp

/-- Summing a list of cell reads where exactly one listed cell differs:
exchanging the differing cell's two values exchanges the sums. -/
theorem sum_map_single_diff (f g : Nat → Nat) :
    ∀ (l : List Nat) (a : Nat), a ∈ l → l.Nodup →
      (∀ i ∈ l, i ≠ a → f i = g i) →
      (l.map f).sum + g a = (l.map g).sum + f a
  | [], a, ha, _, _ => by cases ha
  | b :: l, a, ha, hnd, hfg => by
    rcases List.mem_cons.1 ha with rfl | ha'
    · have htail : ∀ i ∈ l, f i = g i := fun i hi =>
        hfg i (List.mem_cons_of_mem _ hi)
          (fun h => (List.nodup_cons.1 hnd).1 (h ▸ hi))
      have ht : l.map f = l.map g := List.map_congr_left htail
      simp only [List.map_cons, List.sum_cons, ht]
      omega
    · have hb : b ≠ a := fun h => (List.nodup_cons.1 hnd).1 (h ▸ ha')
      have ih := sum_map_single_diff f g l a ha' (List.nodup_cons.1 hnd).2
        (fun i hi hia => hfg i (List.mem_cons_of_mem _ hi) hia)
      simp only [List.map_cons, List.sum_cons, hfg b (List.mem_cons_self _ _) hb]
      omega

/-- Changing a single covered cell to a different byte value changes the
computed checksum. -/
theorem calc_change_inside (t : Cmos) (a v : Nat)
    (ha1 : 0x10 ≤ a) (ha2 : a ≤ 0x2D) (hv : v % 256 ≠ cmos_read t a) :
    cmos_calc_checksum (cmos_write t a v) ≠ cmos_calc_checksum t := by
  rw [calc_eq_sum, calc_eq_sum]
  intro heq
  have hmem : a ∈ List.range' 0x10 0x1E := mem_range'_iff.2 (by omega)
  have hread_a : cmos_read (cmos_write t a v) a = v % 256 := by
    rw [cmos_read_write]; simp
  have hread_other : ∀ i ∈ List.range' 0x10 0x1E, i ≠ a →
      cmos_read (cmos_write t a v) i = cmos_read t i := by
    intro i hi hia
    rw [mem_range'_iff] at hi
    rw [cmos_read_write]
    have h1 : i % 64 = i := Nat.mod_eq_of_lt (by omega)
    have h2 : a % 64 = a := Nat.mod_eq_of_lt (by omega)
    rw [h1, h2]
    simp [hia]
  have := sum_map_single_diff (cmos_read (cmos_write t a v)) (cmos_read t)
    (List.range' 0x10 0x1E) a hmem (List.nodup_range' _ _) hread_other
  rw [heq, hread_a] at this
  omega

/-- The two checksum cells are untouched by a write inside the covered range. -/
theorem stored_checksum_unchanged (t : Cmos) (a v : Nat)
    (ha2 : a ≤ 0x2D) :
    cmos_read (cmos_write t a v) 0x2E = cmos_read t 0x2E ∧
    cmos_read (cmos_write t a v) 0x2F = cmos_read t 0x2F := by
  have h2 : a % 64 = a := Nat.mod_eq_of_lt (by omega)
  constructor <;> (rw [cmos_read_write, h2]; norm_num; intro h; omega)

/-- C1: `verify` is true immediately after `update`, for any store
contents, and becomes false if a single covered cell (0x10–0x2D) is then
changed to a different byte value without a further `update`. -/
theorem checksum_update_verify_single_change (s : Cmos) :
    cmos_verify_checksum (cmos_update_checksum s) = true ∧
    (∀ a v : Nat, 0x10 ≤ a → a ≤ 0x2D →
      v % 256 ≠ cmos_read (cmos_update_checksum s) a →
      cmos_verify_checksum
        (cmos_write (cmos_update_checksum s) a v) = false) := by
  refine ⟨verify_update s, fun a v ha1 ha2 hv => ?_⟩
  set t := cmos_update_checksum s with ht
  have hver : cmos_calc_checksum t =
      ((cmos_read t 0x2E) <<< 8) ||| cmos_read t 0x2F := by
    have := verify_update s
    rw [← ht] at this
    unfold cmos_verify_checksum at this
    exact eq_of_beq this
  have hchg := calc_change_inside t a v ha1 ha2 hv
  have hsto := stored_checksum_unchanged t a v ha2
  unfold cmos_verify_checksum
  rw [hsto.1, hsto.2, ← hver]
  simp only [beq_eq_false_iff_ne]
  exact hchg

/-- Witness for C1 at the all-zero store, cell 0x10 changed to 1. -/
theorem checksum_update_verify_single_change_witness :
    cmos_verify_checksum (cmos_update_checksum (fun _ => 0)) = true ∧
    (1 % 256 ≠ cmos_read (cmos_update_checksum (fun _ => 0)) 0x10 ∧
     cmos_verify_checksum
       (cmos_write (cmos_update_checksum (fun _ => 0)) 0x10 1) = false) :=
  ⟨(checksum_update_verify_single_change (fun _ => 0)).1,
   by decide,
   (checksum_update_verify_single_change (fun _ => 0)).2 0x10 1
     (by norm_num) (by norm_num) (by decide)⟩

/-! ### Setters

Each C setter returning an `int` status becomes a function
`... → Nat × Cmos`: the status (0 = success, 1 = error) and the store
after the operation.  String inputs that the C code parses with
`sscanf`/`atoi`/`strtol` are modelled post-parse (as `Int`, or `Nat` for
the unsigned conversions); single-character drive selectors are the
first character of the argument string. -/

/-- `set_time` (nvr.c:1512), after the `sscanf` has produced the three
components.  Validation happens before any hardware write. -/
def set_time (s : Cmos) (hrs min sec : Int) : Nat × Cmos :=
  if hrs < 0 ∨ hrs > 23 ∨ min < 0 ∨ min > 59 ∨ sec < 0 ∨ sec > 59 then
    (1, s)
  else
    let regb := cmos_read s 0x0B
    let s1 := cmos_write s 0x0B (regb ||| 0x80)
    let s2 := cmos_write s1 0x00 (bin_to_rtc s1 (sec.toNat % 256))
    let s3 := cmos_write s2 0x02 (bin_to_rtc s2 (min.toNat % 256))
    let s4 := cmos_write s3 0x04 (bin_to_rtc s3 (hrs.toNat % 256))
    (0, cmos_write s4 0x0B (regb &&& 0x7F))

/-- `set_date` (nvr.c:1539), post-parse. -/
def set_date (s : Cmos) (day mon year : Int) : Nat × Cmos :=
  if day < 1 ∨ day > 31 ∨ mon < 1 ∨ mon > 12 ∨ year < 1980 ∨ year > 2099 then
    (1, s)
  else
    let cen := year / 100
    let yr := year % 100
    let regb := cmos_read s 0x0B
    let s1 := cmos_write s 0x0B (regb ||| 0x80)
    let s2 := cmos_write s1 0x07 (bin_to_rtc s1 (day.toNat % 256))
    let s3 := cmos_write s2 0x08 (bin_to_rtc s2 (mon.toNat % 256))
    let s4 := cmos_write s3 0x09 (bin_to_rtc s3 (yr.toNat % 256))
    let s5 := cmos_write s4 0x32 (bin_to_rtc s4 (cen.toNat % 256))
    (0, cmos_write s5 0x0B (regb &&& 0x7F))

/-- `set_dow` (nvr.c:1571), post-parse. -/
def set_dow (s : Cmos) (dow : Int) : Nat × Cmos :=
  if dow < 1 ∨ dow > 7 then
    (1, s)
  else
    let regb := cmos_read s 0x0B
    let s1 := cmos_write s 0x0B (regb ||| 0x80)
    let s2 := cmos_write s1 0x06 (bin_to_rtc s1 (dow.toNat % 256))
    (0, cmos_write s2 0x0B (regb &&& 0x7F))

/-- `set_alarm` (nvr.c:532), after the `sscanf` has produced the three
components.  Note: the source range-checks nothing here; negative
components are written as the 0xC0 wildcard and all other values are
encoded and written as-is. -/
def set_alarm (s : Cmos) (hrs min sec : Int) : Nat × Cmos :=
  let regb := cmos_read s 0x0B
  let s1 := cmos_write s 0x0B (regb ||| 0x80)
  let s2 := cmos_write s1 0x01
    (if sec < 0 then 0xC0 else bin_to_rtc s1 (sec.toNat % 256))
  let s3 := cmos_write s2 0x03
    (if min < 0 then 0xC0 else bin_to_rtc s2 (min.toNat % 256))
  let s4 := cmos_write s3 0x05
    (if hrs < 0 then 0xC0 else bin_to_rtc s3 (hrs.toNat % 256))
  (0, cmos_write s4 0x0B (regb &&& 0x7F))

/-- `set_floppy` (nvr.c:607): type 0–4, drive selected by the first
character of the drive argument ('A'/'a'/'0' or 'B'/'b'/'1'). -/
def set_floppy (s : Cmos) (drv : Char) (ty : Int) : Nat × Cmos :=
  if ty < 0 ∨ ty > 4 then
    (1, s)
  else
    let floppy := cmos_read s 0x10
    if drv = 'A' ∨ drv = 'a' ∨ drv = '0' then
      (0, cmos_update_checksum
        (cmos_write s 0x10 ((floppy &&& 0x0F) ||| (ty.toNat <<< 4))))
    else if drv = 'B' ∨ drv = 'b' ∨ drv = '1' then
      (0, cmos_update_checksum
        (cmos_write s 0x10 ((floppy &&& 0xF0) ||| ty.toNat)))
    else
      (1, s)

/-- `set_harddisk` (nvr.c:726): type 0–15, drive '0'/'C'/'c' or '1'/'D'/'d'. -/
def set_harddisk (s : Cmos) (drv : Char) (ty : Int) : Nat × Cmos :=
  if ty < 0 ∨ ty > 15 then
    (1, s)
  else
    let diskbyte := cmos_read s 0x12
    if drv = '0' ∨ drv = 'C' ∨ drv = 'c' then
      (0, cmos_update_checksum
        (cmos_write s 0x12 ((diskbyte &&& 0x0F) ||| (ty.toNat <<< 4))))
    else if drv = '1' ∨ drv = 'D' ∨ drv = 'd' then
      (0, cmos_update_checksum
        (cmos_write s 0x12 ((diskbyte &&& 0xF0) ||| ty.toNat)))
    else
      (1, s)

/-- `set_equipment` (nvr.c:801).  The bit-clearing `&= ~mask` C idioms on
the `unsigned char` value appear as `&&&` with the complemented 8-bit
mask. -/
def set_equipment (s : Cmos) (field : String) (v : Int) : Nat × Cmos :=
  let equip := cmos_read s 0x14
  if field = "fpu" ∨ field = "coprocessor" ∨ field = "8087" then
    let e := if v ≠ 0 then equip ||| 0x02 else equip &&& 0xFD
    (0, cmos_update_checksum (cmos_write s 0x14 e))
  else if field = "video" then
    if v < 0 ∨ v > 3 then
      (1, s)
    else
      (0, cmos_update_checksum
        (cmos_write s 0x14 ((equip &&& 0xCF) ||| ((v.toNat &&& 0x03) <<< 4))))
  else if field = "floppy-count" then
    if v < 0 ∨ v > 4 then
      (1, s)
    else if v = 0 then
      (0, cmos_update_checksum (cmos_write s 0x14 ((equip &&& 0xFE) &&& 0x3F)))
    else
      (0, cmos_update_checksum
        (cmos_write s 0x14
          (((equip ||| 0x01) &&& 0x3F) ||| ((((v - 1).toNat) &&& 0x03) <<< 6))))
  else
    (1, s)

/-- `set_basemem` (nvr.c:873): 64–640 KB, little-endian split. -/
def set_basemem (s : Cmos) (kb : Int) : Nat × Cmos :=
  if kb < 64 ∨ kb > 640 then
    (1, s)
  else
    let s1 := cmos_write s 0x15 (kb.toNat &&& 0xFF)
    let s2 := cmos_write s1 0x16 ((kb.toNat >>> 8) &&& 0xFF)
    (0, cmos_update_checksum s2)

/-- `set_rtc_mode` (nvr.c:1594): branch on the mode name, single
read-modify-write of Register B (or Register A for "rate"). -/
def set_rtc_mode (s : Cmos) (mode : String) (v : Int) : Nat × Cmos :=
  let regb := cmos_read s 0x0B
  if mode = "24h" then
    (0, cmos_write s 0x0B (if v ≠ 0 then regb ||| 0x02 else regb &&& 0xFD))
  else if mode = "bcd" then
    (0, cmos_write s 0x0B (if v ≠ 0 then regb &&& 0xFB else regb ||| 0x04))
  else if mode = "sqw" then
    (0, cmos_write s 0x0B (if v ≠ 0 then regb ||| 0x08 else regb &&& 0xF7))
  else if mode = "dse" then
    (0, cmos_write s 0x0B (if v ≠ 0 then regb ||| 0x01 else regb &&& 0xFE))
  else if mode = "pie" then
    (0, cmos_write s 0x0B (if v ≠ 0 then regb ||| 0x40 else regb &&& 0xBF))
  else if mode = "uie" then
    (0, cmos_write s 0x0B (if v ≠ 0 then regb ||| 0x10 else regb &&& 0xEF))
  else if mode = "rate" then
    if v < 0 ∨ v > 15 then
      (1, s)
    else
      let rega := cmos_read s 0x0A
      (0, cmos_write s 0x0A ((rega &&& 0xF0) ||| (v.toNat &&& 0x0F)))
  else
    (1, s)

/-- `raw_write` (nvr.c:1483): the `strtol`-then-`unsigned` conversion is
modelled by taking the address and value as `Nat`.  A write inside the
checksum-covered range triggers the checksum update. -/
def raw_write (s : Cmos) (addr val : Nat) : Nat × Cmos :=
  if addr ≥ 64 then
    (1, s)
  else if val > 0xFF then
    (1, s)
  else
    let s1 := cmos_write s addr val
    if 0x10 ≤ addr ∧ addr ≤ 0x2D then (0, cmos_update_checksum s1)
    else (0, s1)

/-- `fill_cmos` (nvr.c:2139): fill `[start, stop]` with `val`, skipping
the read-only cells 0x0C/0x0D, then update the checksum. -/
def fill_cmos (s : Cmos) (start stop val : Nat) : Nat × Cmos :=
  if start ≥ 64 ∨ stop ≥ 64 ∨ start > stop then
    (1, s)
  else if val > 0xFF then
    (1, s)
  else
    let s1 := (List.range' start (stop + 1 - start)).foldl
      (fun st i => if i = 0x0C ∨ i = 0x0D then st else cmos_write st i val) s
    (0, cmos_update_checksum s1)

/-- `load_cmos` (nvr.c:1696), after the 64 file bytes have been read into
`data`: set halt-updates, write every cell except the read-only 0x0C/0x0D
in address order, then restore Register B from the imported byte with the
SET bit cleared. -/
def load_cmos (s : Cmos) (data : Nat → Nat) : Cmos :=
  let regb := cmos_read s 0x0B
  let s1 := cmos_write s 0x0B (regb ||| 0x80)
  let s2 := (List.range 64).foldl
    (fun st i => if i = 0x0C ∨ i = 0x0D then st else cmos_write st i (data i)) s1
  cmos_write s2 0x0B (data 0x0B &&& 0x7F)

/-! ### C2: rejection of invalid setter inputs -/

/-- C2 counterexample: `set_alarm` performs no range validation after
format parsing.  The out-of-range input 99:99:99 is accepted (status 0)
and written to the store (alarm-hours cell 0x05 becomes BCD 0x99 = 153 on
the all-zero store), contradicting the claim that every out-of-range
setter input is rejected with no hardware write. -/
theorem set_alarm_out_of_range_accepted :
    (set_alarm (fun _ => 0) 99 99 99).1 = 0 ∧
    (set_alarm (fun _ => 0) 99 99 99).2 0x05 = 0x99 ∧
    (fun _ => (0 : Nat)) 0x05 ≠ 0x99 := by
  refine ⟨rfl, by decide, by decide⟩

/-- C2 (amended): every modelled setter except `set_alarm` rejects
malformed or out-of-range input with status 1 and an unchanged store;
`set_alarm` rejects only a malformed format (outside this model) and
otherwise always succeeds. -/
theorem setters_reject_invalid_unchanged :
    (∀ (s : Cmos) (h m sec : Int),
      (h < 0 ∨ h > 23 ∨ m < 0 ∨ m > 59 ∨ sec < 0 ∨ sec > 59) →
      set_time s h m sec = (1, s)) ∧
    (∀ (s : Cmos) (d mo y : Int),
      (d < 1 ∨ d > 31 ∨ mo < 1 ∨ mo > 12 ∨ y < 1980 ∨ y > 2099) →
      set_date s d mo y = (1, s)) ∧
    (∀ (s : Cmos) (n : Int), (n < 1 ∨ n > 7) → set_dow s n = (1, s)) ∧
    (∀ (s : Cmos) (drv : Char) (ty : Int),
      (ty < 0 ∨ ty > 4) → set_floppy s drv ty = (1, s)) ∧
    (∀ (s : Cmos) (drv : Char) (ty : Int),
      drv ≠ 'A' → drv ≠ 'a' → drv ≠ '0' → drv ≠ 'B' → drv ≠ 'b' → drv ≠ '1' →
      set_floppy s drv ty = (1, s)) ∧
    (∀ (s : Cmos) (drv : Char) (ty : Int),
      (ty < 0 ∨ ty > 15) → set_harddisk s drv ty = (1, s)) ∧
    (∀ (s : Cmos) (drv : Char) (ty : Int),
      drv ≠ '0' → drv ≠ 'C' → drv ≠ 'c' → drv ≠ '1' → drv ≠ 'D' → drv ≠ 'd' →
      set_harddisk s drv ty = (1, s)) ∧
    (∀ (s : Cmos) (field : String) (v : Int),
      field ≠ "fpu" → field ≠ "coprocessor" → field ≠ "8087" →
      field ≠ "video" → field ≠ "floppy-count" →
      set_equipment s field v = (1, s)) ∧
    (∀ (s : Cmos) (v : Int),
      (v < 0 ∨ v > 3) → set_equipment s "video" v = (1, s)) ∧
    (∀ (s : Cmos) (v : Int),
      (v < 0 ∨ v > 4) → set_equipment s "floppy-count" v = (1, s)) ∧
    (∀ (s : Cmos) (kb : Int), (kb < 64 ∨ kb > 640) → set_basemem s kb = (1, s)) ∧
    (∀ (s : Cmos) (mode : String) (v : Int),
      mode ≠ "24h" → mode ≠ "bcd" → mode ≠ "sqw" → mode ≠ "dse" →
      mode ≠ "pie" → mode ≠ "uie" → mode ≠ "rate" →
      set_rtc_mode s mode v = (1, s)) ∧
    (∀ (s : Cmos) (v : Int),
      (v < 0 ∨ v > 15) → set_rtc_mode s "rate" v = (1, s)) ∧
    (∀ (s : Cmos) (addr val : Nat),
      (addr ≥ 64 ∨ val > 0xFF) → raw_write s addr val = (1, s)) ∧
    (∀ (s : Cmos) (h m sec : Int), (set_alarm s h m sec).1 = 0) := by
  refine ⟨?_, ?_, ?_, ?_, ?_, ?_, ?_, ?_, ?_, ?_, ?_, ?_, ?_, ?_, ?_⟩
  · intro s h m sec hbad
    unfold set_time
    rw [if_pos hbad]
  · intro s d mo y hbad
    unfold set_date
    rw [if_pos hbad]
  · intro s n hbad
    unfold set_dow
    rw [if_pos hbad]
  · intro s drv ty hbad
    unfold set_floppy
    rw [if_pos hbad]
  · intro s drv ty h1 h2 h3 h4 h5 h6
    unfold set_floppy
    by_cases hty : ty < 0 ∨ ty > 4
    · rw [if_pos hty]
    · rw [if_neg hty, if_neg (by simp [h1, h2, h3]), if_neg (by simp [h4, h5, h6])]
  · intro s drv ty hbad
    unfold set_harddisk
    rw [if_pos hbad]
  · intro s drv ty h1 h2 h3 h4 h5 h6
    unfold set_harddisk
    by_cases hty : ty < 0 ∨ ty > 15
    · rw [if_pos hty]
    · rw [if_neg hty, if_neg (by simp [h1, h2, h3]), if_neg (by simp [h4, h5, h6])]
  · intro s field v h1 h2 h3 h4 h5
    unfold set_equipment
    rw [if_neg (by simp [h1, h2, h3]), if_neg h4, if_neg h5]
  · intro s v hbad
    unfold set_equipment
    rw [if_neg (by decide), if_pos rfl, if_pos hbad]
  · intro s v hbad
    unfold set_equipment
    rw [if_neg (by decide), if_neg (by decide), if_pos rfl, if_pos hbad]
  · intro s kb hbad
    unfold set_basemem
    rw [if_pos hbad]
  · intro s mode v h1 h2 h3 h4 h5 h6 h7
    unfold set_rtc_mode
    rw [if_neg h1, if_neg h2, if_neg h3, if_neg h4, if_neg h5, if_neg h6,
        if_neg h7]
  · intro s v hbad
    unfold set_rtc_mode
    rw [if_neg (by decide), if_neg (by decide), if_neg (by decide),
        if_neg (by decide), if_neg (by decide), if_neg (by decide),
        if_pos rfl, if_pos hbad]
  · intro s addr val hbad
    unfold raw_write
    rcases hbad with hbad | hbad
    · rw [if_pos hbad]
    · by_cases ha : addr ≥ 64
      · rw [if_pos ha]
      · rw [if_neg ha, if_pos hbad]
  · intro s h m sec
    rfl

/-- Witness for C2 at concrete invalid inputs for every setter. -/
theorem setters_reject_invalid_unchanged_witness :
    set_time (fun _ => 0) 24 0 0 = (1, fun _ => 0) ∧
    set_date (fun _ => 0) 32 1 2000 = (1, fun _ => 0) ∧
    set_dow (fun _ => 0) 8 = (1, fun _ => 0) ∧
    set_floppy (fun _ => 0) 'A' 5 = (1, fun _ => 0) ∧
    set_floppy (fun _ => 0) 'X' 3 = (1, fun _ => 0) ∧
    set_harddisk (fun _ => 0) '0' 16 = (1, fun _ => 0) ∧
    set_harddisk (fun _ => 0) 'X' 3 = (1, fun _ => 0) ∧
    set_equipment (fun _ => 0) "bogus" 1 = (1, fun _ => 0) ∧
    set_equipment (fun _ => 0) "video" 4 = (1, fun _ => 0) ∧
    set_equipment (fun _ => 0) "floppy-count" 5 = (1, fun _ => 0) ∧
    set_basemem (fun _ => 0) 641 = (1, fun _ => 0) ∧
    set_rtc_mode (fun _ => 0) "bogus" 1 = (1, fun _ => 0) ∧
    set_rtc_mode (fun _ => 0) "rate" 16 = (1, fun _ => 0) ∧
    raw_write (fun _ => 0) 64 0 = (1, fun _ => 0) ∧
    (set_alarm (fun _ => 0) 1 2 3).1 = 0 :=
  ⟨setters_reject_invalid_unchanged.1 _ 24 0 0 (by norm_num),
   setters_reject_invalid_unchanged.2.1 _ 32 1 2000 (by norm_num),
   setters_reject_invalid_unchanged.2.2.1 _ 8 (by norm_num),
   setters_reject_invalid_unchanged.2.2.2.1 _ 'A' 5 (by norm_num),
   setters_reject_invalid_unchanged.2.2.2.2.1 _ 'X' 3
     (by decide) (by decide) (by decide) (by decide) (by decide) (by decide),
   setters_reject_invalid_unchanged.2.2.2.2.2.1 _ '0' 16 (by norm_num),
   setters_reject_invalid_unchanged.2.2.2.2.2.2.1 _ 'X' 3
     (by decide) (by decide) (by decide) (by decide) (by decide) (by decide),
   setters_reject_invalid_unchanged.2.2.2.2.2.2.2.1 _ "bogus" 1
     (by decide) (by decide) (by decide) (by decide) (by decide),
   setters_reject_invalid_unchanged.2.2.2.2.2.2.2.2.1 _ 4 (by norm_num),
   setters_reject_invalid_unchanged.2.2.2.2.2.2.2.2.2.1 _ 5 (by norm_num),
   setters_reject_invalid_unchanged.2.2.2.2.2.2.2.2.2.2.1 _ 641 (by norm_num),
   setters_reject_invalid_unchanged.2.2.2.2.2.2.2.2.2.2.2.1 _ "bogus" 1
     (by decide) (by decide) (by decide) (by decide) (by decide) (by decide)
     (by decide),
   setters_reject_invalid_unchanged.2.2.2.2.2.2.2.2.2.2.2.2.1 _ 16 (by norm_num),
   setters_reject_invalid_unchanged.2.2.2.2.2.2.2.2.2.2.2.2.2.1 _ 64 0
     (by norm_num),
   setters_reject_invalid_unchanged.2.2.2.2.2.2.2.2.2.2.2.2.2.2 _ 1 2 3⟩

/-! ### C3: checksum recompute after successful covered-range setters -/

/-- C3: every setter that mutates a cell inside the checksum-covered
range 0x10–0x2D (`set_floppy`, `set_harddisk`, `set_equipment`,
`set_basemem`, `raw_write` to a covered address, `fill_cmos`) finishes
with the checksum recompute, so `cmos_verify_checksum` is true on the
resulting store whenever the operation succeeds. -/
theorem covered_setters_leave_valid_checksum :
    (∀ (s : Cmos) (drv : Char) (ty : Int),
      (set_floppy s drv ty).1 = 0 →
      cmos_verify_checksum (set_floppy s drv ty).2 = true) ∧
    (∀ (s : Cmos) (drv : Char) (ty : Int),
      (set_harddisk s drv ty).1 = 0 →
      cmos_verify_checksum (set_harddisk s drv ty).2 = true) ∧
    (∀ (s : Cmos) (field : String) (v : Int),
      (set_equipment s field v).1 = 0 →
      cmos_verify_checksum (set_equipment s field v).2 = true) ∧
    (∀ (s : Cmos) (kb : Int),
      (set_basemem s kb).1 = 0 →
      cmos_verify_checksum (set_basemem s kb).2 = true) ∧
    (∀ (s : Cmos) (addr val : Nat),
      0x10 ≤ addr → addr ≤ 0x2D →
      (raw_write s addr val).1 = 0 →
      cmos_verify_checksum (raw_write s addr val).2 = true) ∧
    (∀ (s : Cmos) (start stop val : Nat),
      (fill_cmos s start stop val).1 = 0 →
      cmos_verify_checksum (fill_cmos s start stop val).2 = true) := by
  refine ⟨?_, ?_, ?_, ?_, ?_, ?_⟩
  · intro s drv ty h
    simp only [set_floppy] at h ⊢
    split_ifs at h ⊢ <;> exact verify_update _
  · intro s drv ty h
    simp only [set_harddisk] at h ⊢
    split_ifs at h ⊢ <;> exact verify_update _
  · intro s field v h
    simp only [set_equipment] at h ⊢
    split_ifs at h ⊢ <;> exact verify_update _
  · intro s kb h
    simp only [set_basemem] at h ⊢
    split_ifs at h ⊢
    exact verify_update _
  · intro s addr val ha1 ha2 h
    unfold raw_write at h ⊢
    rw [if_neg (by omega : ¬ addr ≥ 64)] at h ⊢
    by_cases hv : val > 0xFF
    · rw [if_pos hv] at h
      simp at h
    · rw [if_neg hv] at h ⊢
      rw [if_pos (by omega : 0x10 ≤ addr ∧ addr ≤ 0x2D)]
      exact verify_update _
  · intro s start stop val h
    unfold fill_cmos at h ⊢
    by_cases h1 : start ≥ 64 ∨ stop ≥ 64 ∨ start > stop
    · rw [if_pos h1] at h
      simp at h
    · rw [if_neg h1] at h ⊢
      by_cases h2 : val > 0xFF
      · rw [if_pos h2] at h
        simp at h
      · rw [if_neg h2]
        exact verify_update _

set_option maxHeartbeats 2000000 in
/-- Witness for C3 at concrete successful calls on the all-zero store. -/
theorem covered_setters_leave_valid_checksum_witness :
    (set_floppy (fun _ => 0) 'A' 3).1 = 0 ∧
    cmos_verify_checksum (set_floppy (fun _ => 0) 'A' 3).2 = true ∧
    (set_harddisk (fun _ => 0) '0' 2).1 = 0 ∧
    cmos_verify_checksum (set_harddisk (fun _ => 0) '0' 2).2 = true ∧
    (set_equipment (fun _ => 0) "video" 2).1 = 0 ∧
    cmos_verify_checksum (set_equipment (fun _ => 0) "video" 2).2 = true ∧
    (set_basemem (fun _ => 0) 640).1 = 0 ∧
    cmos_verify_checksum (set_basemem (fun _ => 0) 640).2 = true ∧
    (raw_write (fun _ => 0) 0x20 0xAB).1 = 0 ∧
    cmos_verify_checksum (raw_write (fun _ => 0) 0x20 0xAB).2 = true ∧
    (fill_cmos (fun _ => 0) 0x10 0x2D 0x11).1 = 0 ∧
    cmos_verify_checksum (fill_cmos (fun _ => 0) 0x10 0x2D 0x11).2 = true :=
  ⟨by decide,
   covered_setters_leave_valid_checksum.1 _ 'A' 3 (by decide),
   by decide,
   covered_setters_leave_valid_checksum.2.1 _ '0' 2 (by decide),
   by decide,
   covered_setters_leave_valid_checksum.2.2.1 _ "video" 2 (by decide),
   by decide,
   covered_setters_leave_valid_checksum.2.2.2.1 _ 640 (by decide),
   by decide,
   covered_setters_leave_valid_checksum.2.2.2.2.1 _ 0x20 0xAB
     (by norm_num) (by norm_num) (by decide),
   by decide,
   covered_setters_leave_valid_checksum.2.2.2.2.2 _ 0x10 0x2D 0x11 (by decide)⟩

/-! ### C5: BCD codec round-trip -/

/-- C5: decoding the BCD encoding is the identity on 0–99, and in binary
data mode (`rtc_is_bcd` false) both conversions are the identity on all
byte values. -/
theorem bcd_codec_roundtrip :
    (∀ b : Nat, b < 100 → bcd_to_bin (bin_to_bcd b) = b) ∧
    (∀ s : Cmos, rtc_is_bcd s = false →
      ∀ v : Nat, v < 256 → rtc_to_bin s v = v ∧ bin_to_rtc s v = v) := by
  constructor
  · decide
  · intro s hs v _
    unfold rtc_to_bin bin_to_rtc
    rw [hs]
    simp

/-- Witness for C5: round-trip at 59, binary-mode identity at 200 on a
store whose Register B has the data-mode (binary) bit set. -/
theorem bcd_codec_roundtrip_witness :
    (59 < 100 ∧ bcd_to_bin (bin_to_bcd 59) = 59) ∧
    (rtc_is_bcd (fun _ => 4) = false ∧ 200 < 256 ∧
     rtc_to_bin (fun _ => 4) 200 = 200 ∧ bin_to_rtc (fun _ => 4) 200 = 200) :=
  ⟨⟨by norm_num, bcd_codec_roundtrip.1 59 (by norm_num)⟩,
   ⟨by decide, by norm_num,
    (bcd_codec_roundtrip.2 (fun _ => 4) (by decide) 200 (by norm_num)).1,
    (bcd_codec_roundtrip.2 (fun _ => 4) (by decide) 200 (by norm_num)).2⟩⟩

/-! ### `show_time` (nvr.c:360): decoded fields plus the read trace -/

/-- The decoded outputs of `show_time`. -/
structure TimeFields where
  seconds : Nat
  minutes : Nat
  hours : Nat
  dayOfWeek : Nat
  dayOfMonth : Nat
  month : Nat
  year : Nat
  century : Nat
  deriving DecidableEq

/-- Addresses read by `rtc_wait_uip` (nvr.c:256): with the
update-in-progress bit clear the loop reads Register A once; with it
permanently set the 10000-iteration budget performs 10000 reads. -/
def rtc_wait_uip_reads (s : Cmos) : List Nat :=
  if cmos_read s 0x0A &&& 0x80 = 0 then [0x0A] else List.replicate 10000 0x0A

/-- `show_time` (nvr.c:360) over a fixed store: the decoded fields and
the list of CMOS addresses read, in program order.  The trace is the
`rtc_wait_uip` reads, then the nine raw-value reads (0x00, 0x02, 0x04,
0x06, 0x07, 0x08, 0x09, 0x32, 0x0B), then one Register B read (0x0B) for
each of the eight `rtc_to_bin` calls (seven field decodes plus the one
inside the hour branch), since each `rtc_to_bin` re-reads Register B via
`rtc_is_bcd`. -/
def show_time (s : Cmos) : TimeFields × List Nat :=
  let sec := cmos_read s 0x00
  let min := cmos_read s 0x02
  let hrs := cmos_read s 0x04
  let dow := cmos_read s 0x06
  let dom := cmos_read s 0x07
  let mon := cmos_read s 0x08
  let yr := cmos_read s 0x09
  let cen := cmos_read s 0x32
  let regb := cmos_read s 0x0B
  let sec2 := rtc_to_bin s sec
  let min2 := rtc_to_bin s min
  let dom2 := rtc_to_bin s dom
  let mon2 := rtc_to_bin s mon
  let yr2 := rtc_to_bin s yr
  let cen2 := rtc_to_bin s cen
  let dow2 := rtc_to_bin s dow
  let hrs2 :=
    if regb &&& 0x02 ≠ 0 then
      rtc_to_bin s hrs
    else
      let pm := hrs &&& 0x80
      let h7 := hrs &&& 0x7F
      let hb := rtc_to_bin s h7
      if pm ≠ 0 then (if hb < 12 then hb + 12 else hb)
      else (if hb = 12 then 0 else hb)
  let dow3 := if dow2 > 7 then 0 else dow2
  let mon3 := if mon2 > 12 then 0 else mon2
  (⟨sec2, min2, hrs2, dow3, dom2, mon3, yr2, cen2⟩,
   rtc_wait_uip_reads s ++
     [0x00, 0x02, 0x04, 0x06, 0x07, 0x08, 0x09, 0x32, 0x0B] ++
     [0x0B, 0x0B, 0x0B, 0x0B, 0x0B, 0x0B, 0x0B] ++ [0x0B])

/-- Modelled from the spec (C4's claimed behaviour): a time decoder that
reads the Register B data-mode flag exactly once and decodes every field
with that single snapshot. -/
def show_time_snapshot (s : Cmos) : TimeFields :=
  let sec := cmos_read s 0x00
  let min := cmos_read s 0x02
  let hrs := cmos_read s 0x04
  let dow := cmos_read s 0x06
  let dom := cmos_read s 0x07
  let mon := cmos_read s 0x08
  let yr := cmos_read s 0x09
  let cen := cmos_read s 0x32
  let regb := cmos_read s 0x0B
  let dec := fun v => if regb &&& 0x04 == 0 then bcd_to_bin v else v
  let sec2 := dec sec
  let min2 := dec min
  let dom2 := dec dom
  let mon2 := dec mon
  let yr2 := dec yr
  let cen2 := dec cen
  let dow2 := dec dow
  let hrs2 :=
    if regb &&& 0x02 ≠ 0 then
      dec hrs
    else
      let pm := hrs &&& 0x80
      let h7 := hrs &&& 0x7F
      let hb := dec h7
      if pm ≠ 0 then (if hb < 12 then hb + 12 else hb)
      else (if hb = 12 then 0 else hb)
  let dow3 := if dow2 > 7 then 0 else dow2
  let mon3 := if mon2 > 12 then 0 else mon2
  ⟨sec2, min2, hrs2, dow3, dom2, mon3, yr2, cen2⟩

/-- C4 counterexample: on a concrete store, `show_time` reads the
Register B cell 0x0B nine times (once explicitly, then once per
`rtc_to_bin` call), not exactly once. -/
theorem show_time_reads_regb_nine_times :
    ((show_time (fun _ => 0)).2.count 0x0B = 9) ∧ (9 : Nat) ≠ 1 := by
  constructor
  · decide
  · norm_num

/-- C4 (amended): `show_time` re-reads the data-mode flag for every
field, but since the store does not change during the operation the
decoded fields coincide with those of the single-snapshot decoder. -/
theorem show_time_fields_eq_snapshot (s : Cmos) :
    (show_time s).1 = show_time_snapshot s := rfl

/-! ### C6: 12-hour mode hour folding -/

/-- C6: in 12-hour mode (Register B 24-hour bit clear) `show_time` folds
the decoded hour to 24-hour form: PM with decoded 12 stays 12, AM with
decoded 12 becomes 0, PM with decoded value below 12 gains 12. -/
theorem show_time_hour_folding (s : Cmos)
    (h24 : cmos_read s 0x0B &&& 0x02 = 0) :
    (cmos_read s 0x04 &&& 0x80 ≠ 0 →
      rtc_to_bin s (cmos_read s 0x04 &&& 0x7F) = 12 →
      (show_time s).1.hours = 12) ∧
    (cmos_read s 0x04 &&& 0x80 = 0 →
      rtc_to_bin s (cmos_read s 0x04 &&& 0x7F) = 12 →
      (show_time s).1.hours = 0) ∧
    (cmos_read s 0x04 &&& 0x80 ≠ 0 →
      rtc_to_bin s (cmos_read s 0x04 &&& 0x7F) < 12 →
      (show_time s).1.hours = rtc_to_bin s (cmos_read s 0x04 &&& 0x7F) + 12) := by
  refine ⟨?_, ?_, ?_⟩ <;> intro hpm hdec <;>
    simp [show_time, h24, hpm, hdec]

/-- Witness for C6 at three concrete stores in BCD 12-hour mode: raw hour
0x92 (PM, decoded 12) gives 12, raw 0x12 (AM, decoded 12) gives 0, raw
0x85 (PM, decoded 5) gives 17. -/
theorem show_time_hour_folding_witness :
    (cmos_read (fun a => if a = 4 then 0x92 else 0) 0x0B &&& 0x02 = 0 ∧
     (show_time (fun a => if a = 4 then 0x92 else 0)).1.hours = 12) ∧
    (cmos_read (fun a => if a = 4 then 0x12 else 0) 0x0B &&& 0x02 = 0 ∧
     (show_time (fun a => if a = 4 then 0x12 else 0)).1.hours = 0) ∧
    (cmos_read (fun a => if a = 4 then 0x85 else 0) 0x0B &&& 0x02 = 0 ∧
     (show_time (fun a => if a = 4 then 0x85 else 0)).1.hours = 5 + 12) :=
  ⟨⟨by decide,
    (show_time_hour_folding _ (by decide)).1 (by decide) (by decide)⟩,
   ⟨by decide,
    (show_time_hour_folding _ (by decide)).2.1 (by decide) (by decide)⟩,
   ⟨by decide, by
    have := (show_time_hour_folding (fun a => if a = 4 then 0x85 else 0)
      (by decide)).2.2 (by decide) (by decide)
    rwa [show rtc_to_bin (fun a => if a = 4 then 0x85 else 0)
      (cmos_read (fun a => if a = 4 then 0x85 else 0) 0x04 &&& 0x7F) = 5
      from by decide] at this⟩⟩

/-! ### The write loop that skips the read-only cells 0x0C/0x0D -/

/-- Pointwise effect of a fold that writes `f i` to each listed cell,
skipping the two read-only cells (the loop shape of `load_cmos` and
`fill_cmos`). -/
theorem skip_loop_get (f : Nat → Nat) :
    ∀ (l : List Nat) (st : Cmos) (x : Nat),
      (∀ i ∈ l, i < 64) → x < 64 →
      (l.foldl (fun st i => if i = 0x0C ∨ i = 0x0D then st
                            else cmos_write st i (f i)) st) x =
        if x ∈ l ∧ ¬(x = 0x0C ∨ x = 0x0D) then f x % 256 else st x
  | [], st, x, _, _ => by simp
  | i :: l, st, x, hl, hx => by
    simp only [List.foldl_cons]
    rw [skip_loop_get f l _ x (fun j hj => hl j (List.mem_cons_of_mem _ hj)) hx]
    by_cases hmem : x ∈ l ∧ ¬(x = 0x0C ∨ x = 0x0D)
    · rw [if_pos hmem, if_pos ⟨List.mem_cons_of_mem _ hmem.1, hmem.2⟩]
    · rw [if_neg hmem]
      by_cases hski : i = 0x0C ∨ i = 0x0D
      · rw [if_pos hski, if_neg ?_]
        rintro ⟨hxm, hnsk⟩
        rcases List.mem_cons.1 hxm with rfl | hxl
        · exact hnsk hski
        · exact hmem ⟨hxl, hnsk⟩
      · rw [if_neg hski, cmos_write_apply]
        have hi64 : i % 64 = i := Nat.mod_eq_of_lt (hl i (List.mem_cons_self _ _))
        rw [hi64]
        by_cases hxi : x = i
        · subst hxi
          rw [if_pos rfl, if_pos ⟨List.mem_cons_self _ _, hski⟩]
        · rw [if_neg hxi, if_neg ?_]
          rintro ⟨hxm, hnsk⟩
          rcases List.mem_cons.1 hxm with rfl | hxl
          · exact hxi rfl
          · exact hmem ⟨hxl, hnsk⟩

/-- `cmos_update_checksum` touches only the two checksum cells. -/
theorem update_checksum_apply_ne (t : Cmos) (x : Nat)
    (h46 : x ≠ 0x2E) (h47 : x ≠ 0x2F) :
    cmos_update_checksum t x = t x := by
  unfold cmos_update_checksum
  rw [cmos_write_apply, if_neg (by omega), cmos_write_apply, if_neg (by omega)]

/-! ### C7: snapshot import -/

/-- C7: after `load_cmos` of a 64-byte image, every cell other than the
read-only 0x0C/0x0D and Register B holds the imported byte, the two
read-only cells keep their previous contents, and Register B holds the
imported Register B byte with the halt-updates bit (0x80) cleared. -/
theorem load_cmos_spec (s : Cmos) (data : Nat → Nat)
    (hdata : ∀ i, i < 64 → data i < 256) :
    (∀ x, x < 64 → x ≠ 0x0B → x ≠ 0x0C → x ≠ 0x0D →
      load_cmos s data x = data x) ∧
    load_cmos s data 0x0C = s 0x0C ∧
    load_cmos s data 0x0D = s 0x0D ∧
    load_cmos s data 0x0B = data 0x0B &&& 0x7F := by
  have hl : ∀ i ∈ List.range 64, i < 64 := fun i hi => List.mem_range.1 hi
  refine ⟨?_, ?_, ?_, ?_⟩
  · intro x hx h11 h12 h13
    simp only [load_cmos]
    rw [cmos_write_apply, if_neg (by omega)]
    rw [skip_loop_get _ _ _ _ hl hx]
    rw [if_pos ⟨List.mem_range.2 hx, by omega⟩]
    exact Nat.mod_eq_of_lt (hdata x hx)
  · simp only [load_cmos]
    rw [cmos_write_apply, if_neg (by norm_num)]
    rw [skip_loop_get _ _ _ _ hl (by norm_num)]
    rw [if_neg (by simp), cmos_write_apply, if_neg (by norm_num)]
  · simp only [load_cmos]
    rw [cmos_write_apply, if_neg (by norm_num)]
    rw [skip_loop_get _ _ _ _ hl (by norm_num)]
    rw [if_neg (by simp), cmos_write_apply, if_neg (by norm_num)]
  · simp only [load_cmos]
    rw [cmos_write_apply, if_pos (by norm_num)]
    exact Nat.mod_eq_of_lt (lt_of_le_of_lt Nat.and_le_right (by norm_num))

/-- Witness for C7 on a concrete store and image. -/
theorem load_cmos_spec_witness :
    (∀ i, i < 64 → (fun j : Nat => (j + 100) % 256) i < 256) ∧
    (load_cmos (fun _ => 7) (fun j => (j + 100) % 256) 0x20 =
       (fun j : Nat => (j + 100) % 256) 0x20 ∧
     load_cmos (fun _ => 7) (fun j => (j + 100) % 256) 0x0C = (fun _ : Nat => 7) 0x0C ∧
     load_cmos (fun _ => 7) (fun j => (j + 100) % 256) 0x0D = (fun _ : Nat => 7) 0x0D ∧
     load_cmos (fun _ => 7) (fun j => (j + 100) % 256) 0x0B =
       (fun j : Nat => (j + 100) % 256) 0x0B &&& 0x7F) :=
  ⟨by decide,
   (load_cmos_spec _ _ (by decide)).1 0x20 (by norm_num) (by norm_num)
     (by norm_num) (by norm_num),
   (load_cmos_spec _ _ (by decide)).2.1,
   (load_cmos_spec _ _ (by decide)).2.2.1,
   (load_cmos_spec _ _ (by decide)).2.2.2⟩

/-! ### C10: range fill skips the read-only cells -/

/-- C10 counterexample: the claim that every non-read-only cell in the
requested range ends up holding the fill value fails when the range
covers the checksum cells 0x2E/0x2F, because the final checksum update
overwrites them: filling 0x2E–0x2F with 0xAA on the all-zero store leaves
cell 0x2E holding 0 (the recomputed checksum), not 0xAA. -/
theorem fill_cmos_checksum_cells_overwritten :
    (fill_cmos (fun _ => 0) 0x2E 0x2F 0xAA).1 = 0 ∧
    (fill_cmos (fun _ => 0) 0x2E 0x2F 0xAA).2 0x2E = 0 ∧
    (0 : Nat) ≠ 0xAA := by
  refine ⟨by decide, by decide, by norm_num⟩

/-- C10 (amended): for every valid fill input the operation succeeds, the
read-only cells 0x0C/0x0D are untouched even when they lie inside the
range, every other cell of the range except the two checksum cells
0x2E/0x2F receives the fill value, and the checksum cells hold the
recomputed checksum (so verification succeeds). -/
theorem fill_cmos_skips_readonly (s : Cmos) (start stop val : Nat)
    (h1 : start < 64) (h2 : stop < 64) (h3 : start ≤ stop) (h4 : val ≤ 0xFF) :
    (fill_cmos s start stop val).1 = 0 ∧
    (fill_cmos s start stop val).2 0x0C = s 0x0C ∧
    (fill_cmos s start stop val).2 0x0D = s 0x0D ∧
    (∀ x, start ≤ x → x ≤ stop → x ≠ 0x0C → x ≠ 0x0D → x ≠ 0x2E → x ≠ 0x2F →
      (fill_cmos s start stop val).2 x = val) ∧
    cmos_verify_checksum (fill_cmos s start stop val).2 = true := by
  have hnot1 : ¬ (start ≥ 64 ∨ stop ≥ 64 ∨ start > stop) := by omega
  have hnot2 : ¬ (val > 0xFF) := by omega
  have hl : ∀ i ∈ List.range' start (stop + 1 - start), i < 64 := by
    intro i hi
    rw [mem_range'_iff] at hi
    omega
  have hres : fill_cmos s start stop val =
      (0, cmos_update_checksum
        ((List.range' start (stop + 1 - start)).foldl
          (fun st i => if i = 0x0C ∨ i = 0x0D then st
                       else cmos_write st i val) s)) := by
    unfold fill_cmos
    rw [if_neg hnot1, if_neg hnot2]
  have hres1 : (fill_cmos s start stop val).1 = 0 := by rw [hres]
  have hres2 : (fill_cmos s start stop val).2 =
      cmos_update_checksum
        ((List.range' start (stop + 1 - start)).foldl
          (fun st i => if i = 0x0C ∨ i = 0x0D then st
                       else cmos_write st i val) s) := by rw [hres]
  refine ⟨hres1, ?_, ?_, ?_, ?_⟩
  · rw [hres2]
    rw [update_checksum_apply_ne _ _ (by norm_num) (by norm_num)]
    rw [show (fun st i => if i = 0x0C ∨ i = 0x0D then st
          else cmos_write st i val) =
        (fun st i => if i = 0x0C ∨ i = 0x0D then st
          else cmos_write st i ((fun _ => val) i)) from rfl]
    rw [skip_loop_get _ _ _ _ hl (by norm_num)]
    rw [if_neg (by simp)]
  · rw [hres2]
    rw [update_checksum_apply_ne _ _ (by norm_num) (by norm_num)]
    rw [show (fun st i => if i = 0x0C ∨ i = 0x0D then st
          else cmos_write st i val) =
        (fun st i => if i = 0x0C ∨ i = 0x0D then st
          else cmos_write st i ((fun _ => val) i)) from rfl]
    rw [skip_loop_get _ _ _ _ hl (by norm_num)]
    rw [if_neg (by simp)]
  · intro x hx1 hx2 h12 h13 h46 h47
    rw [hres2]
    rw [update_checksum_apply_ne _ _ h46 h47]
    rw [show (fun st i => if i = 0x0C ∨ i = 0x0D then st
          else cmos_write st i val) =
        (fun st i => if i = 0x0C ∨ i = 0x0D then st
          else cmos_write st i ((fun _ => val) i)) from rfl]
    rw [skip_loop_get _ _ _ _ hl (by omega)]
    rw [if_pos ⟨mem_range'_iff.2 (by omega), by omega⟩]
    omega
  · rw [hres2]
    exact verify_update _

/-- Witness for C10: fill 0x05–0x20 with 0x55 over a store holding 9
everywhere; cells 0x0C/0x0D keep 9, cell 0x10 receives 0x55. -/
theorem fill_cmos_skips_readonly_witness :
    (fill_cmos (fun _ => 9) 0x05 0x20 0x55).1 = 0 ∧
    (fill_cmos (fun _ => 9) 0x05 0x20 0x55).2 0x0C = (fun _ : Nat => 9) 0x0C ∧
    (fill_cmos (fun _ => 9) 0x05 0x20 0x55).2 0x0D = (fun _ : Nat => 9) 0x0D ∧
    (fill_cmos (fun _ => 9) 0x05 0x20 0x55).2 0x10 = 0x55 ∧
    cmos_verify_checksum (fill_cmos (fun _ => 9) 0x05 0x20 0x55).2 = true :=
  ⟨(fill_cmos_skips_readonly (fun _ => 9) 0x05 0x20 0x55
      (by norm_num) (by norm_num) (by norm_num) (by norm_num)).1,
   (fill_cmos_skips_readonly (fun _ => 9) 0x05 0x20 0x55
      (by norm_num) (by norm_num) (by norm_num) (by norm_num)).2.1,
   (fill_cmos_skips_readonly (fun _ => 9) 0x05 0x20 0x55
      (by norm_num) (by norm_num) (by norm_num) (by norm_num)).2.2.1,
   (fill_cmos_skips_readonly (fun _ => 9) 0x05 0x20 0x55
      (by norm_num) (by norm_num) (by norm_num) (by norm_num)).2.2.2.1 0x10
     (by norm_num) (by norm_num) (by norm_num) (by norm_num) (by norm_num)
     (by norm_num),
   (fill_cmos_skips_readonly (fun _ => 9) 0x05 0x20 0x55
      (by norm_num) (by norm_num) (by norm_num) (by norm_num)).2.2.2.2⟩

/-! ### C8: factory reset -/

/-- A straight-line sequence of CMOS writes, as (address, value) pairs in
program order. -/
def writeSeq (st : Cmos) (l : List (Nat × Nat)) : Cmos :=
  l.foldl (fun st p => cmos_write st p.1 p.2) st

/-- The write sequence of `factory_reset` (nvr.c:1748) after the initial
halt-updates write, in program order: Register A, Register B, diagnostic,
shutdown, floppy, disk, equipment, base/extended memory, extended disk
types, century, the three alarm wildcards, the two clear loops
(0x1B–0x2D and 0x33–0x3F), and the final Register B restore. -/
def factoryWrites : List (Nat × Nat) :=
  [(0x0A, 0x26), (0x0B, 0x02), (0x0E, 0x00), (0x0F, 0x00),
   (0x10, 0x30), (0x12, 0x00), (0x14, 0x01),
   (0x15, 0x80), (0x16, 0x02), (0x17, 0x00), (0x18, 0x00),
   (0x19, 0x00), (0x1A, 0x00), (0x32, 0x20),
   (0x01, 0xC0), (0x03, 0xC0), (0x05, 0xC0)] ++
  ((List.range' 0x1B 0x13).map (fun i => (i, 0))) ++
  ((List.range' 0x33 0x0D).map (fun i => (i, 0))) ++
  [(0x0B, 0x02)]

/-- `factory_reset` (nvr.c:1748): halt updates, write the fixed defaults,
clear the reserved ranges, restore Register B, update the checksum. -/
def factory_reset (s : Cmos) : Cmos :=
  let regb := cmos_read s 0x0B
  let s1 := cmos_write s 0x0B (regb ||| 0x80)
  cmos_update_checksum (writeSeq s1 factoryWrites)

theorem factory_reset_eq (s : Cmos) :
    factory_reset s = cmos_update_checksum
      (writeSeq (cmos_write s 0x0B (cmos_read s 0x0B ||| 0x80))
        factoryWrites) := rfl

/-- The value of a cell after a write sequence: the last listed write to
that cell wins, otherwise the cell is untouched. -/
theorem writeSeq_get :
    ∀ (l : List (Nat × Nat)) (st : Cmos) (x : Nat),
      writeSeq st l x =
        match l.reverse.find? (fun p => x == p.1 % 64) with
        | some p => p.2 % 256
        | none => st x
  | [], st, x => by simp [writeSeq]
  | p :: l, st, x => by
    simp only [writeSeq, List.foldl_cons]
    rw [show (l.foldl (fun st q => cmos_write st q.1 q.2)
        (cmos_write st p.1 p.2)) x =
      writeSeq (cmos_write st p.1 p.2) l x from rfl]
    rw [writeSeq_get l _ x]
    simp only [List.reverse_cons, List.find?_append]
    cases hf : l.reverse.find? (fun q => x == q.1 % 64) with
    | some q => simp
    | none =>
      simp only [Option.none_or]
      rw [cmos_write_apply]
      by_cases hx : x = p.1 % 64
      · rw [if_pos hx, List.find?_cons_of_pos _ (by simpa using hx)]
      · rw [if_neg hx, List.find?_cons_of_neg _ (by simpa using hx),
            List.find?_nil]

/-- If some listed write targets the cell, the result does not depend on
the starting store. -/
theorem writeSeq_indep (l : List (Nat × Nat)) (st st' : Cmos) (x : Nat)
    (h : (l.reverse.find? (fun p => x == p.1 % 64)).isSome = true) :
    writeSeq st l x = writeSeq st' l x := by
  rw [writeSeq_get, writeSeq_get]
  cases hf : l.reverse.find? (fun p => x == p.1 % 64) with
  | none => rw [hf] at h; simp at h
  | some p => rfl

/-- A cell no listed write targets is untouched. -/
theorem writeSeq_get_none (l : List (Nat × Nat)) (st : Cmos) (x : Nat)
    (h : l.reverse.find? (fun p => x == p.1 % 64) = none) :
    writeSeq st l x = st x := by
  rw [writeSeq_get, h]

/-- The checksum computation only looks at the covered cells mod 256. -/
theorem calc_congr (a b : Cmos)
    (h : ∀ y, 0x10 ≤ y → y ≤ 0x2D → a y % 256 = b y % 256) :
    cmos_calc_checksum a = cmos_calc_checksum b := by
  rw [calc_eq_sum, calc_eq_sum]
  congr 1
  apply List.map_congr_left
  intro i hi
  rw [mem_range'_iff] at hi
  unfold cmos_read
  rw [Nat.mod_eq_of_lt (show i < 64 by omega)]
  exact h i (by omega) (by omega)

theorem update_checksum_apply_46 (t : Cmos) :
    cmos_update_checksum t 0x2E =
      ((cmos_calc_checksum t >>> 8) &&& 0xFF) % 256 := by
  unfold cmos_update_checksum
  rw [cmos_write_apply, if_neg (by norm_num), cmos_write_apply,
      if_pos (by norm_num)]

theorem update_checksum_apply_47 (t : Cmos) :
    cmos_update_checksum t 0x2F = (cmos_calc_checksum t &&& 0xFF) % 256 := by
  unfold cmos_update_checksum
  rw [cmos_write_apply, if_pos (by norm_num)]

/-- Cells 0x11 and 0x13 are the only covered cells `factory_reset` never
writes; every other cell in 0x10–0x2D is hit by some listed write. -/
theorem factoryWrites_covered :
    ∀ y, y < 46 → 16 ≤ y → y ≠ 0x11 → y ≠ 0x13 →
      ((factoryWrites.reverse.find? (fun p => y == p.1 % 64)).isSome = true) := by
  decide

theorem factoryWrites_find_17 :
    factoryWrites.reverse.find? (fun p => 0x11 == p.1 % 64) = none := by decide

theorem factoryWrites_find_19 :
    factoryWrites.reverse.find? (fun p => 0x13 == p.1 % 64) = none := by decide

theorem factoryWrites_find_11 :
    ((factoryWrites.reverse.find? (fun p => 0x0B == p.1 % 64)).isSome = true) := by
  decide

/-- A cell no listed write targets (and that is not a checksum cell) is
untouched by `factory_reset`. -/
theorem factory_reset_untouched (s : Cmos) (x : Nat)
    (hf : factoryWrites.reverse.find? (fun p => x == p.1 % 64) = none)
    (h46 : x ≠ 0x2E) (h47 : x ≠ 0x2F) :
    factory_reset s x = s x := by
  have hx11 : x ≠ 0x0B := by
    intro h
    subst h
    have h11 := factoryWrites_find_11
    rw [hf] at h11
    simp at h11
  rw [factory_reset_eq, update_checksum_apply_ne _ _ h46 h47,
      writeSeq_get_none _ _ _ hf, cmos_write_apply, if_neg (by omega)]

/-- Two starting stores that agree (mod 256) on the unwritten covered
cells 0x11/0x13 produce the same checksum input after the factory write
sequence. -/
theorem factory_calc_agree (s t : Cmos)
    (h17 : s 0x11 % 256 = t 0x11 % 256)
    (h19 : s 0x13 % 256 = t 0x13 % 256) :
    cmos_calc_checksum
      (writeSeq (cmos_write s 0x0B (cmos_read s 0x0B ||| 0x80)) factoryWrites) =
    cmos_calc_checksum
      (writeSeq (cmos_write t 0x0B (cmos_read t 0x0B ||| 0x80)) factoryWrites) := by
  apply calc_congr
  intro y hy1 hy2
  by_cases hf : (factoryWrites.reverse.find? (fun p => y == p.1 % 64)).isSome = true
  · rw [writeSeq_indep _ _ (cmos_write t 0x0B (cmos_read t 0x0B ||| 0x80)) _ hf]
  · have hnone : factoryWrites.reverse.find? (fun p => y == p.1 % 64) = none := by
      cases hc : factoryWrites.reverse.find? (fun p => y == p.1 % 64) with
      | none => rfl
      | some p => rw [hc] at hf; simp at hf
    have hy := fun h11 h13 =>
      hf (factoryWrites_covered y (by omega) (by omega) h11 h13)
    by_cases h11 : y = 0x11
    · subst h11
      rw [writeSeq_get_none _ _ _ hnone, writeSeq_get_none _ _ _ hnone,
          cmos_write_apply, if_neg (by norm_num),
          cmos_write_apply, if_neg (by norm_num)]
      exact h17
    · by_cases h13 : y = 0x13
      · subst h13
        rw [writeSeq_get_none _ _ _ hnone, writeSeq_get_none _ _ _ hnone,
            cmos_write_apply, if_neg (by norm_num),
            cmos_write_apply, if_neg (by norm_num)]
        exact h19
      · exact absurd (factoryWrites_covered y (by omega) (by omega) h11 h13) hf

/-- Two starting stores that agree (mod 256) on 0x11/0x13 agree after
`factory_reset` on every cell some write targets and on the checksum
cells. -/
theorem factory_reset_agree (s t : Cmos)
    (h17 : s 0x11 % 256 = t 0x11 % 256)
    (h19 : s 0x13 % 256 = t 0x13 % 256) (x : Nat)
    (hx : ((factoryWrites.reverse.find? (fun p => x == p.1 % 64)).isSome = true)
          ∨ x = 0x2E ∨ x = 0x2F) :
    factory_reset s x = factory_reset t x := by
  rcases hx with hf | rfl | rfl
  · by_cases h46 : x = 0x2E
    · subst h46
      rw [factory_reset_eq, factory_reset_eq, update_checksum_apply_46,
          update_checksum_apply_46, factory_calc_agree s t h17 h19]
    · by_cases h47 : x = 0x2F
      · subst h47
        rw [factory_reset_eq, factory_reset_eq, update_checksum_apply_47,
            update_checksum_apply_47, factory_calc_agree s t h17 h19]
      · rw [factory_reset_eq, factory_reset_eq,
            update_checksum_apply_ne _ _ h46 h47,
            update_checksum_apply_ne _ _ h46 h47,
            writeSeq_indep _ _ (cmos_write t 0x0B (cmos_read t 0x0B ||| 0x80)) _ hf]
  · rw [factory_reset_eq, factory_reset_eq, update_checksum_apply_46,
        update_checksum_apply_46, factory_calc_agree s t h17 h19]
  · rw [factory_reset_eq, factory_reset_eq, update_checksum_apply_47,
        update_checksum_apply_47, factory_calc_agree s t h17 h19]

/-- C8: `factory_reset` is idempotent — a second run leaves every cell
exactly as the first run left it — and the checksum verifies after each
run. -/
theorem factory_reset_idempotent (s : Cmos) :
    (∀ x, factory_reset (factory_reset s) x = factory_reset s x) ∧
    cmos_verify_checksum (factory_reset s) = true ∧
    cmos_verify_checksum (factory_reset (factory_reset s)) = true := by
  refine ⟨?_, ?_, ?_⟩
  · intro x
    have ht17 : factory_reset s 0x11 = s 0x11 :=
      factory_reset_untouched s 0x11 factoryWrites_find_17
        (by norm_num) (by norm_num)
    have ht19 : factory_reset s 0x13 = s 0x13 :=
      factory_reset_untouched s 0x13 factoryWrites_find_19
        (by norm_num) (by norm_num)
    by_cases hx : ((factoryWrites.reverse.find? (fun p => x == p.1 % 64)).isSome
        = true) ∨ x = 0x2E ∨ x = 0x2F
    · exact factory_reset_agree (factory_reset s) s
        (by rw [ht17]) (by rw [ht19]) x hx
    · push_neg at hx
      have hnone : factoryWrites.reverse.find? (fun p => x == p.1 % 64) = none := by
        cases hc : factoryWrites.reverse.find? (fun p => x == p.1 % 64) with
        | none => rfl
        | some p => exact absurd (by rw [hc]; rfl) hx.1
      exact factory_reset_untouched (factory_reset s) x hnone hx.2.1 hx.2.2
  · rw [factory_reset_eq]
    exact verify_update _
  · rw [factory_reset_eq]
    exact verify_update _

/-! ### C9: nibble-interleaved status read -/

/-- The hardware state `amstrad_read_sysstat2` interacts with: the PB
selector register (port 0x61) and the port-0x62 status latch, whose
8-bit read value depends on the current PB register contents (PB bit 2
selects which nibble the latch presents). -/
structure PbPorts where
  pb : Nat
  status2 : Nat → Nat

/-- `amstrad_read_sysstat2` (nvr.c:276): save PB, clear the nibble-select
bit and read the high nibble, set it and read the low nibble, restore PB,
return `(hi << 4) | lo`.  `outb` stores a byte (`% 256`); `inb` reads a
byte. -/
def amstrad_read_sysstat2 (h : PbPorts) : Nat × PbPorts :=
  let pb := h.pb % 256
  let h1 : PbPorts := { h with pb := (pb &&& 0xFB) % 256 }
  let hi := (h1.status2 h1.pb % 256) &&& 0x0F
  let h2 : PbPorts := { h1 with pb := (pb ||| 0x04) % 256 }
  let lo := (h2.status2 h2.pb % 256) &&& 0x0F
  let h3 : PbPorts := { h2 with pb := pb % 256 }
  ((hi <<< 4) ||| lo, h3)

/-- C9: the nibble-interleaved read returns `(hi << 4) | lo` built from
the two 4-bit reads, and on return the PB selector register holds exactly
the byte it held before the operation. -/
theorem amstrad_read_sysstat2_spec (h : PbPorts) (hpb : h.pb < 256) :
    (amstrad_read_sysstat2 h).2.pb = h.pb ∧
    (amstrad_read_sysstat2 h).1 =
      ((h.status2 (h.pb &&& 0xFB) % 256 &&& 0x0F) <<< 4) |||
        (h.status2 (h.pb ||| 0x04) % 256 &&& 0x0F) ∧
    (amstrad_read_sysstat2 h).2.status2 = h.status2 := by
  have hm : h.pb % 256 = h.pb := Nat.mod_eq_of_lt hpb
  have hand : (h.pb &&& 0xFB) % 256 = h.pb &&& 0xFB :=
    Nat.mod_eq_of_lt (lt_of_le_of_lt Nat.and_le_right (by norm_num))
  have hor : (h.pb ||| 0x04) % 256 = h.pb ||| 0x04 := by
    apply Nat.mod_eq_of_lt
    have := Nat.or_lt_two_pow (x := h.pb) (y := 4) (n := 8)
      (by rw [pow_two_eight]; omega) (by norm_num)
    rwa [pow_two_eight] at this
  refine ⟨?_, ?_, rfl⟩ <;> simp only [amstrad_read_sysstat2, hm, hand, hor]

/-- Witness for C9 at PB = 0xAB with a concrete latch response. -/
theorem amstrad_read_sysstat2_spec_witness :
    (PbPorts.mk 0xAB (fun p => p + 3)).pb < 256 ∧
    (amstrad_read_sysstat2 ⟨0xAB, fun p => p + 3⟩).2.pb = 0xAB ∧
    (amstrad_read_sysstat2 ⟨0xAB, fun p => p + 3⟩).1 =
      (((fun p : Nat => p + 3) ((0xAB : Nat) &&& 0xFB) % 256 &&& 0x0F) <<< 4) |||
        ((fun p : Nat => p + 3) ((0xAB : Nat) ||| 0x04) % 256 &&& 0x0F) :=
  ⟨by norm_num,
   (amstrad_read_sysstat2_spec ⟨0xAB, fun p => p + 3⟩ (by norm_num)).1,
   (amstrad_read_sysstat2_spec ⟨0xAB, fun p => p + 3⟩ (by norm_num)).2.1⟩
